import Mathlib

/-! Shallow embedding of the news-article classification pipeline of this
repository: the response parser and batch orchestrator in src/LLM.py and the
articles-table schema of src/db.py, together with theorems settling the
specification's claims about them. Python strings are modelled as lists of
characters, the network client and the store-write outcome as oracles. -/

/-- Python strings are modelled as lists of unicode characters. -/
abbrev PyStr : Type := List Char

/-- The character list of a Lean string literal. -/
def chars (s : String) : PyStr := s.data

/-- Whitespace as recognised by Python str.strip with no arguments. -/
def pyIsSpace (c : Char) : Bool :=
  c = ' ' || c = '\t' || c = '\n' || c = '\r' || c = '\x0b' || c = '\x0c' ||
  c = '\x1c' || c = '\x1d' || c = '\x1e' || c = '\x1f' || c = '\x85' || c = '\xa0' ||
  c.toNat = 0x1680 || (0x2000 ≤ c.toNat && c.toNat ≤ 0x200a) || c.toNat = 0x2028 ||
  c.toNat = 0x2029 || c.toNat = 0x202f || c.toNat = 0x205f || c.toNat = 0x3000

/-- Python str.strip acting on the left end only. -/
def lstrip (l : PyStr) : PyStr := l.dropWhile pyIsSpace

/-- Python str.strip acting on the right end only. -/
def rstrip (l : PyStr) : PyStr := (l.reverse.dropWhile pyIsSpace).reverse

/-- Python s.strip(): remove leading and trailing whitespace. -/
def pyStrip (l : PyStr) : PyStr := rstrip (lstrip l)

/-- Python s.split with a newline separator: the groups between newline
characters, empty groups kept, exactly as str.split behaves. -/
def splitNl : PyStr → List PyStr
  | [] => [[]]
  | c :: rest =>
    if c = '\n' then [] :: splitNl rest
    else
      match splitNl rest with
      | [] => [[c]]
      | g :: gs => (c :: g) :: gs

/-- Fuel-driven core of Python str.replace: replace every non-overlapping
occurrence of pat, scanning left to right. The fuel is instantiated with the
length of the scanned list, so for the non-empty patterns used in this file
the fuel never runs out. -/
def replaceAllGo (pat rep : PyStr) : Nat → PyStr → PyStr
  | _, [] => []
  | 0, l => l
  | n + 1, c :: rest =>
    if pat.isPrefixOf (c :: rest) then
      rep ++ replaceAllGo pat rep n ((c :: rest).drop pat.length)
    else c :: replaceAllGo pat rep n rest

/-- Python l.replace(pat, rep) for a non-empty pattern. -/
def pyReplace (l pat rep : PyStr) : PyStr := replaceAllGo pat rep l.length l

/-- Whether pat occurs in l as a contiguous substring; used to state when
pyReplace leaves its input unchanged. -/
def hasOccur (pat : PyStr) : PyStr → Bool
  | [] => pat.isEmpty
  | c :: rest => pat.isPrefixOf (c :: rest) || hasOccur pat rest

/-- Python truthiness of an optional string: None and the empty string are falsy. -/
def pyTruthyStr : Option PyStr → Bool
  | none => false
  | some s => !s.isEmpty

/-- Python x or d for an optional string x, as used for the reasoning field. -/
def pyOrDefault (x : Option PyStr) (d : PyStr) : PyStr :=
  match x with
  | some s => if s.isEmpty then d else s
  | none => d

/-- One iteration of the line loop of parse_llm_response: a line starting with
the Classification label overwrites the classification slot with the line's
label occurrences removed and the remainder stripped; otherwise a line starting
with the Explanation label overwrites the explanation slot likewise. -/
def scanStep (acc : Option PyStr × Option PyStr) (line : PyStr) :
    Option PyStr × Option PyStr :=
  if (chars "Classification:").isPrefixOf line then
    (some (pyStrip (pyReplace line (chars "Classification:") [])), acc.2)
  else if (chars "Explanation:").isPrefixOf line then
    (acc.1, some (pyStrip (pyReplace line (chars "Explanation:") [])))
  else acc

/-- The full line loop of parse_llm_response, both slots starting at None. -/
def scanLines (lines : List PyStr) : Option PyStr × Option PyStr :=
  lines.foldl scanStep (none, none)

/-- The set of valid classification labels of parse_llm_response. -/
def valid_classifications : List PyStr :=
  [chars "Threat", chars "Opportunity", chars "Neutral"]

/-- parse_llm_response from src/LLM.py: on falsy input return (None, None);
otherwise strip the response, split it into lines, run the line loop, replace
a classification outside the valid set (or a missing one) with the sentinel,
and fall back to the whole raw response when the explanation is falsy. -/
def parse_llm_response (response : Option PyStr) : Option PyStr × Option PyStr :=
  match response with
  | none => (none, none)
  | some r =>
    if r.isEmpty then (none, none)
    else
      let scanned := scanLines (splitNl (pyStrip r))
      let classification : PyStr :=
        match scanned.1 with
        | some c => if c ∈ valid_classifications then c else chars "Error: Unknown"
        | none => chars "Error: Unknown"
      let explanation : PyStr :=
        match scanned.2 with
        | some e => if e.isEmpty then r else e
        | none => r
      (some classification, some explanation)

/-- The value parse_llm_response captures from a Classification line. -/
def extractC (line : PyStr) : PyStr :=
  pyStrip (pyReplace line (chars "Classification:") [])

/-- The value parse_llm_response captures from an Explanation line. -/
def extractE (line : PyStr) : PyStr :=
  pyStrip (pyReplace line (chars "Explanation:") [])

/-- Whether a line enters the Classification branch of the line loop. -/
def isClassLine (line : PyStr) : Bool := (chars "Classification:").isPrefixOf line

/-- Whether a line matches the Explanation label of the line loop. -/
def isExplLine (line : PyStr) : Bool := (chars "Explanation:").isPrefixOf line

/-- The last element of a list satisfying p, if any. -/
def lastSuch (p : PyStr → Bool) : List PyStr → Option PyStr
  | [] => none
  | l :: rest =>
    match lastSuch p rest with
    | some x => some x
    | none => if p l then some l else none

/-- One row of the pending-articles query of get_pending_entries: the columns
id, status, title, link, summary, date_published, source, date_added. -/
structure Entry where
  id : Int
  status : PyStr
  title : PyStr
  link : PyStr
  summary : Option PyStr
  datePublished : Option PyStr
  source : PyStr
  dateAdded : PyStr
  deriving DecidableEq

/-- The triple a successful classify_article call returns: the message
content, the optional reasoning trace, and the finish reason. -/
structure Reply where
  content : Option PyStr
  reasoning : Option PyStr
  finishReason : Option PyStr
  deriving DecidableEq

/-- The argument tuple of one update_database call: article id, the three
result fields, and the status written (status defaults to CLASSIFIED at the
call site of the success branch). -/
structure UpdateCall where
  articleId : Int
  classification : Option PyStr
  explanation : Option PyStr
  reasoning : Option PyStr
  status : PyStr
  deriving DecidableEq

/-- One iteration of the per-article loop of main, for the article at loop
index i. The classify_article outcome is the oracle client (None models a
failed call), the update_database return value on the CLASSIFIED path is the
oracle wok. Returns the update_database call made for this article and
whether the iteration increments the successful counter. -/
def stepOf (client : Nat → Option Reply) (wok : Nat → Bool) (i : Nat)
    (e : Entry) : UpdateCall × Bool :=
  match client i with
  | some rep =>
    let pr := parse_llm_response rep.content
    if pyTruthyStr pr.1 && pyTruthyStr pr.2 then
      (⟨e.id, pr.1, pr.2, some (pyOrDefault rep.reasoning []), chars "CLASSIFIED"⟩,
       wok i)
    else
      (⟨e.id, none, none, none, chars "FAILED (to parse response)"⟩, false)
  | none =>
    (⟨e.id, none, none, none, chars "FAILED (no response)"⟩, false)

/-- The per-article loop of main over the fetched batch, starting at loop
index i: the list of update_database calls in order, the successful counter
and the failed counter. -/
def processEntries (client : Nat → Option Reply) (wok : Nat → Bool) :
    Nat → List Entry → List UpdateCall × Nat × Nat
  | _, [] => ([], 0, 0)
  | i, e :: rest =>
    let st := stepOf client wok i e
    let r := processEntries client wok (i + 1) rest
    (st.1 :: r.1, (if st.2 then r.2.1 + 1 else r.2.1),
     (if st.2 then r.2.2 else r.2.2 + 1))

/-- main from src/LLM.py, given the fetched batch: on an empty batch it
returns early, making no store write and never touching the counters
(summary None); otherwise it runs the per-article loop and reports the
successful and failed counts. -/
def runMain (client : Nat → Option Reply) (wok : Nat → Bool)
    (entries : List Entry) : List UpdateCall × Option (Nat × Nat) :=
  if entries.isEmpty then ([], none)
  else
    let r := processEntries client wok 0 entries
    (r.1, some r.2)

/-- The update_database calls a run makes, one per article, by loop index. -/
def runWrites (client : Nat → Option Reply) (wok : Nat → Bool) :
    Nat → List Entry → List UpdateCall
  | _, [] => []
  | i, e :: rest => (stepOf client wok i e).1 :: runWrites client wok (i + 1) rest

/-- The value of the successful counter after the loop from index i on. -/
def runSucc (client : Nat → Option Reply) (wok : Nat → Bool) :
    Nat → List Entry → Nat
  | _, [] => 0
  | i, e :: rest =>
    (if (stepOf client wok i e).2 then 1 else 0) + runSucc client wok (i + 1) rest

/-- The value of the failed counter after the loop from index i on. -/
def runFail (client : Nat → Option Reply) (wok : Nat → Bool) :
    Nat → List Entry → Nat
  | _, [] => 0
  | i, e :: rest =>
    (if (stepOf client wok i e).2 then 0 else 1) + runFail client wok (i + 1) rest

/-- Whether a reply's content parses into a truthy classification and a
truthy explanation, which is the success condition of main's inner branch. -/
def goodReply (rep : Reply) : Bool :=
  pyTruthyStr (parse_llm_response rep.content).1 &&
  pyTruthyStr (parse_llm_response rep.content).2

/-- The CHECK constraint on the status column of the articles table created
by init_db in src/db.py (and by setup_database in src/database_setup.py):
status IN ('FAILED', 'PENDING', 'SENT'). -/
def sqliteStatusCheckOK (s : PyStr) : Bool :=
  s = chars "FAILED" || s = chars "PENDING" || s = chars "SENT"

/-- A sample pending article used by concrete witnesses. -/
def sampleEntry1 : Entry :=
  ⟨1, chars "PENDING", chars "Title one", chars "https://a/1", some (chars "s1"),
   some (chars "2025-11-06"), chars "NOS", chars "2025-11-06"⟩

/-- A second sample pending article used by concrete witnesses. -/
def sampleEntry2 : Entry :=
  ⟨2, chars "PENDING", chars "Title two", chars "https://a/2", none,
   none, chars "NOS", chars "2025-11-06"⟩

/-- A third sample pending article used by concrete witnesses. -/
def sampleEntry3 : Entry :=
  ⟨3, chars "PENDING", chars "Title three", chars "https://a/3", some (chars "s3"),
   some (chars "2025-11-07"), chars "NOS", chars "2025-11-07"⟩

/-- A sample well-formed reply whose content parses successfully. -/
def sampleGoodReply : Reply :=
  ⟨some (chars "Classification: Threat\nExplanation: price war"), some (chars "r"),
   some (chars "stop")⟩

/-- A second sample well-formed reply whose content parses successfully. -/
def sampleGoodReply2 : Reply :=
  ⟨some (chars "Classification: Neutral\nExplanation: no impact"), none,
   some (chars "stop")⟩

/-- A sample reply whose content is empty, so parsing yields (None, None). -/
def sampleBadReply : Reply := ⟨some [], none, some (chars "stop")⟩

/-- A sample client oracle: succeeds with well-formed replies on articles 1
and 3 of a batch and fails (None) on article 2. -/
def sampleClient : Nat → Option Reply := fun i =>
  match i with
  | 0 => some sampleGoodReply
  | 1 => none
  | _ => some sampleGoodReply2

/-- A sample client oracle that always returns the unparsable reply. -/
def sampleClientBad : Nat → Option Reply := fun _ => some sampleBadReply

/-- A sample store-write oracle under which every update succeeds. -/
def sampleWok : Nat → Bool := fun _ => true

/-! Helper lemmas about the string primitives. -/

lemma dropWhile_eq_self_of_le (p : Char → Bool) (l : List Char)
    (h : l.length ≤ (l.dropWhile p).length) : l.dropWhile p = l :=
  (List.dropWhile_suffix p).eq_of_length_le h

lemma length_lstrip_le (l : PyStr) : (lstrip l).length ≤ l.length :=
  (List.dropWhile_sublist pyIsSpace).length_le

lemma length_rstrip_le (l : PyStr) : (rstrip l).length ≤ l.length := by
  have : (l.reverse.dropWhile pyIsSpace).length ≤ l.reverse.length :=
    (List.dropWhile_sublist pyIsSpace).length_le
  simpa [rstrip] using this

lemma pyStrip_fix_parts (l : PyStr) (h : pyStrip l = l) :
    lstrip l = l ∧ rstrip l = l := by
  have hlen : l.length ≤ (lstrip l).length := by
    have h1 : (pyStrip l).length = l.length := by rw [h]
    have h2 : (rstrip (lstrip l)).length ≤ (lstrip l).length := length_rstrip_le _
    rw [pyStrip] at h1
    omega
  have hl : lstrip l = l := dropWhile_eq_self_of_le pyIsSpace l hlen
  refine ⟨hl, ?_⟩
  have := h
  rw [pyStrip, hl] at this
  exact this

lemma dropWhile_cons_self_head (p : Char → Bool) (c : Char) (t : List Char)
    (h : List.dropWhile p (c :: t) = c :: t) : p c = false := by
  by_contra hc
  rw [Bool.not_eq_false] at hc
  rw [List.dropWhile_cons, if_pos hc] at h
  have hle : (List.dropWhile p t).length ≤ t.length := (List.dropWhile_sublist p).length_le
  have : (List.dropWhile p t).length = t.length + 1 := by rw [h]; rfl
  omega

lemma rstrip_fix_head (l : PyStr) (hne : l ≠ []) (h : rstrip l = l) :
    ∃ c t, l.reverse = c :: t ∧ pyIsSpace c = false := by
  cases hr : l.reverse with
  | nil =>
    exact absurd (by simpa using congrArg List.reverse hr) hne
  | cons c t =>
    refine ⟨c, t, rfl, ?_⟩
    have h2 : l.reverse.dropWhile pyIsSpace = l.reverse := by
      have := congrArg List.reverse h
      rwa [rstrip, List.reverse_reverse] at this
    rw [hr] at h2
    exact dropWhile_cons_self_head pyIsSpace c t h2

lemma rstrip_append (l m : PyStr) (hm : m ≠ []) (h : rstrip m = m) :
    rstrip (l ++ m) = l ++ m := by
  obtain ⟨c, t, hrev, hc⟩ := rstrip_fix_head m hm h
  have hrev2 : (l ++ m).reverse = c :: (t ++ l.reverse) := by
    rw [List.reverse_append, hrev, List.cons_append]
  rw [rstrip, hrev2, List.dropWhile_cons, if_neg (by simp [hc]), ← hrev2,
    List.reverse_reverse]

lemma lstrip_cons_of_not_space (c : Char) (l : PyStr) (h : pyIsSpace c = false) :
    lstrip (c :: l) = c :: l := by
  rw [lstrip, List.dropWhile_cons, if_neg (by simp [h])]

lemma lstrip_cons_of_space (c : Char) (l : PyStr) (h : pyIsSpace c = true) :
    lstrip (c :: l) = lstrip l := by
  rw [lstrip, List.dropWhile_cons, if_pos (by simp [h]), lstrip]

lemma splitNl_of_no_nl (a : PyStr) (h : '\n' ∉ a) : splitNl a = [a] := by
  induction a with
  | nil => rfl
  | cons c t ih =>
    have hc : ¬ c = '\n' := fun e => h (by rw [e]; exact List.mem_cons_self _ t)
    have ht : '\n' ∉ t := fun m => h (List.mem_cons_of_mem c m)
    rw [splitNl.eq_def]
    simp only [if_neg hc, ih ht]

lemma splitNl_append_nl (a b : PyStr) (h : '\n' ∉ a) :
    splitNl (a ++ '\n' :: b) = a :: splitNl b := by
  induction a with
  | nil => rw [List.nil_append, splitNl.eq_def]; simp
  | cons c t ih =>
    have hc : ¬ c = '\n' := fun e => h (by rw [e]; exact List.mem_cons_self _ t)
    have ht : '\n' ∉ t := fun m => h (List.mem_cons_of_mem c m)
    rw [List.cons_append, splitNl.eq_def]
    simp only [if_neg hc, ih ht]

lemma replaceAllGo_of_no_occur (pat rep : PyStr) (n : Nat) (l : PyStr)
    (h : hasOccur pat l = false) : replaceAllGo pat rep n l = l := by
  induction n generalizing l with
  | zero => cases l <;> rfl
  | succ n ih =>
    cases l with
    | nil => rfl
    | cons c rest =>
      rw [hasOccur, Bool.or_eq_false_iff] at h
      rw [replaceAllGo, if_neg (by simp [h.1]), ih rest h.2]

lemma isPrefixOf_append_self (p x : List Char) : p.isPrefixOf (p ++ x) = true := by
  induction p with
  | nil => simp [List.isPrefixOf]
  | cons a as ih => simp [List.isPrefixOf, ih]

lemma isPrefixOf_cons_ne (a b : Char) (as bs : List Char) (h : ¬ a = b) :
    List.isPrefixOf (a :: as) (b :: bs) = false := by
  simp [List.isPrefixOf, h]

lemma pyReplace_label (pat e : PyStr) (hp : pat ≠ [])
    (ho : hasOccur pat (' ' :: e) = false) :
    pyReplace (pat ++ ' ' :: e) pat [] = ' ' :: e := by
  cases pat with
  | nil => exact absurd rfl hp
  | cons p ps =>
    rw [pyReplace, List.cons_append, List.length_cons, replaceAllGo,
      if_pos (by rw [← List.cons_append]; exact isPrefixOf_append_self (p :: ps) (' ' :: e))]
    rw [List.nil_append, show (p :: (ps ++ ' ' :: e)).drop (p :: ps).length =
      ' ' :: e from by rw [← List.cons_append]; exact List.drop_left (p :: ps) (' ' :: e)]
    exact replaceAllGo_of_no_occur (p :: ps) [] _ (' ' :: e) ho

lemma explLine_not_classLine (l : PyStr) (h : isExplLine l = true) :
    isClassLine l = false := by
  cases l with
  | nil => simp [isExplLine, show chars "Explanation:" = 'E' :: chars "xplanation:" from rfl,
      List.isPrefixOf] at h
  | cons b bs =>
    rw [isExplLine, show chars "Explanation:" = 'E' :: chars "xplanation:" from rfl] at h
    have hb : b = 'E' := by
      by_contra hne
      rw [isPrefixOf_cons_ne _ _ _ _ (fun e => hne e.symm)] at h
      exact Bool.false_ne_true h
    rw [isClassLine, show chars "Classification:" = 'C' :: chars "lassification:" from rfl, hb]
    exact isPrefixOf_cons_ne _ _ _ _ (by decide)

lemma foldl_scan_fst (lines : List PyStr) (acc : Option PyStr × Option PyStr) :
    (lines.foldl scanStep acc).1 =
      match lastSuch isClassLine lines with
      | some l => some (extractC l)
      | none => acc.1 := by
  induction lines generalizing acc with
  | nil => rfl
  | cons l rest ih =>
    rw [List.foldl_cons, ih (scanStep acc l), lastSuch]
    cases h : lastSuch isClassLine rest with
    | some x => rfl
    | none =>
      by_cases hc : isClassLine l
      · rw [if_pos hc]
        rw [isClassLine] at hc
        simp only [scanStep, if_pos hc, extractC]
      · rw [if_neg hc]
        rw [isClassLine, Bool.not_eq_true] at hc
        simp only [scanStep, hc, Bool.false_eq_true, if_false]
        split <;> rfl

lemma foldl_scan_snd (lines : List PyStr) (acc : Option PyStr × Option PyStr) :
    (lines.foldl scanStep acc).2 =
      match lastSuch isExplLine lines with
      | some l => some (extractE l)
      | none => acc.2 := by
  induction lines generalizing acc with
  | nil => rfl
  | cons l rest ih =>
    rw [List.foldl_cons, ih (scanStep acc l), lastSuch]
    cases h : lastSuch isExplLine rest with
    | some x => rfl
    | none =>
      by_cases he : isExplLine l
      · rw [if_pos he]
        have hc := explLine_not_classLine l he
        rw [isClassLine] at hc
        rw [isExplLine] at he
        simp only [scanStep, hc, Bool.false_eq_true, if_false, if_pos he, extractE]
      · rw [if_neg he]
        rw [isExplLine, Bool.not_eq_true] at he
        simp only [scanStep, he, Bool.false_eq_true, if_false]
        split <;> rfl

lemma scanLines_eq (lines : List PyStr) :
    scanLines lines =
      ((lastSuch isClassLine lines).map extractC,
       (lastSuch isExplLine lines).map extractE) := by
  rw [scanLines]
  refine Prod.ext ?_ ?_
  · rw [foldl_scan_fst]
    cases lastSuch isClassLine lines <;> rfl
  · rw [foldl_scan_snd]
    cases lastSuch isExplLine lines <;> rfl

lemma isEmpty_false_of_ne_nil {α : Type} (r : List α) (h : r ≠ []) : r.isEmpty = false := by
  cases r with
  | nil => exact absurd rfl h
  | cons c t => rfl

lemma parse_some_eq (r : PyStr) (h : r ≠ []) :
    parse_llm_response (some r) =
      (some (match (lastSuch isClassLine (splitNl (pyStrip r))).map extractC with
             | some c => if c ∈ valid_classifications then c else chars "Error: Unknown"
             | none => chars "Error: Unknown"),
       some (match (lastSuch isExplLine (splitNl (pyStrip r))).map extractE with
             | some e => if e.isEmpty then r else e
             | none => r)) := by
  simp only [parse_llm_response]
  rw [isEmpty_false_of_ne_nil r h]
  simp only [Bool.false_eq_true, if_false, scanLines_eq]

lemma parse_fst_cases (r : Option PyStr) (c : PyStr) (e : Option PyStr)
    (h : parse_llm_response r = (some c, e)) :
    c = chars "Threat" ∨ c = chars "Opportunity" ∨ c = chars "Neutral" ∨
      c = chars "Error: Unknown" := by
  cases r with
  | none => simp [parse_llm_response] at h
  | some s =>
    rcases Decidable.em (s = []) with hs | hs
    · rw [hs] at h; simp [parse_llm_response] at h
    · rw [parse_some_eq s hs] at h
      have h1 : (match (lastSuch isClassLine (splitNl (pyStrip s))).map extractC with
             | some c0 => if c0 ∈ valid_classifications then c0 else chars "Error: Unknown"
             | none => chars "Error: Unknown") = c := by
        have := congrArg Prod.fst h
        simpa using this
      cases hsc : (lastSuch isClassLine (splitNl (pyStrip s))).map extractC with
      | none =>
        rw [hsc] at h1
        right; right; right; exact h1.symm
      | some c0 =>
        rw [hsc] at h1
        have h2 : (if c0 ∈ valid_classifications then c0 else chars "Error: Unknown") = c := h1
        by_cases hv : c0 ∈ valid_classifications
        · rw [if_pos hv] at h2
          rw [← h2]
          simp only [valid_classifications, List.mem_cons, List.not_mem_nil, or_false] at hv
          tauto
        · rw [if_neg hv] at h2
          right; right; right; exact h2.symm

lemma parse_snd_ne_nil (r : Option PyStr) (c : Option PyStr) (e : PyStr)
    (h : parse_llm_response r = (c, some e)) : e ≠ [] := by
  cases r with
  | none => simp [parse_llm_response] at h
  | some s =>
    rcases Decidable.em (s = []) with hs | hs
    · rw [hs] at h; simp [parse_llm_response] at h
    · rw [parse_some_eq s hs] at h
      have h1 : (match (lastSuch isExplLine (splitNl (pyStrip s))).map extractE with
             | some e0 => if e0.isEmpty then s else e0
             | none => s) = e := by
        have := congrArg Prod.snd h
        simpa using this
      cases hsc : (lastSuch isExplLine (splitNl (pyStrip s))).map extractE with
      | none =>
        rw [hsc] at h1
        rw [← h1]; exact hs
      | some e0 =>
        rw [hsc] at h1
        have h2 : (if e0.isEmpty = true then s else e0) = e := h1
        by_cases he : e0.isEmpty = true
        · rw [if_pos he] at h2
          rw [← h2]; exact hs
        · rw [if_neg he] at h2
          rw [← h2]
          intro hnil
          rw [hnil] at he
          exact he rfl

lemma pyStrip_cons_space (c : Char) (l : PyStr) (h : pyIsSpace c = true) :
    pyStrip (c :: l) = pyStrip l := by
  rw [pyStrip, lstrip_cons_of_space c l h, pyStrip]

lemma hasOccur_cons_false (pat : PyStr) (c : Char) (l : PyStr)
    (h1 : pat.isPrefixOf (c :: l) = false) (h2 : hasOccur pat l = false) :
    hasOccur pat (c :: l) = false := by
  rw [hasOccur, h1, h2]
  rfl

lemma parse_some_scan (r : PyStr) (h : r ≠ []) (c e : PyStr)
    (hscan : scanLines (splitNl (pyStrip r)) = (some c, some e))
    (hcv : (if c ∈ valid_classifications then c else chars "Error: Unknown") = c)
    (he : e ≠ []) :
    parse_llm_response (some r) = (some c, some e) := by
  simp only [parse_llm_response]
  rw [isEmpty_false_of_ne_nil r h]
  simp only [Bool.false_eq_true, if_false, hscan]
  show (some (if c ∈ valid_classifications then c else chars "Error: Unknown"),
    some (if e.isEmpty = true then r else e)) = (some c, some e)
  rw [hcv, isEmpty_false_of_ne_nil e he]
  simp

lemma scanStep_label_c (acc : Option PyStr × Option PyStr) (c : PyStr)
    (hco : hasOccur (chars "Classification:") c = false) (hcs : pyStrip c = c) :
    scanStep acc (chars "Classification: " ++ c) = (some c, acc.2) := by
  rw [show chars "Classification: " ++ c = chars "Classification:" ++ ' ' :: c from rfl]
  rw [scanStep, if_pos (isPrefixOf_append_self (chars "Classification:") (' ' :: c))]
  rw [pyReplace_label (chars "Classification:") c (by decide)
    (hasOccur_cons_false _ ' ' c
      (isPrefixOf_cons_ne 'C' ' ' (chars "lassification:") c (by decide)) hco)]
  rw [pyStrip_cons_space ' ' c (by decide), hcs]

lemma scanStep_label_e (acc : Option PyStr × Option PyStr) (e : PyStr)
    (heo : hasOccur (chars "Explanation:") e = false) (hes : pyStrip e = e) :
    scanStep acc (chars "Explanation: " ++ e) = (acc.1, some e) := by
  rw [show chars "Explanation: " ++ e = chars "Explanation:" ++ ' ' :: e from rfl]
  rw [scanStep]
  rw [if_neg (by
    rw [show chars "Explanation:" ++ ' ' :: e = 'E' :: (chars "xplanation:" ++ ' ' :: e)
      from rfl]
    rw [show chars "Classification:" = 'C' :: chars "lassification:" from rfl]
    rw [isPrefixOf_cons_ne 'C' 'E' _ _ (by decide)]
    exact Bool.false_ne_true)]
  rw [if_pos (isPrefixOf_append_self (chars "Explanation:") (' ' :: e))]
  rw [pyReplace_label (chars "Explanation:") e (by decide)
    (hasOccur_cons_false _ ' ' e
      (isPrefixOf_cons_ne 'E' ' ' (chars "xplanation:") e (by decide)) heo)]
  rw [pyStrip_cons_space ' ' e (by decide), hes]

lemma parse_template (c e : PyStr)
    (hco : hasOccur (chars "Classification:") c = false)
    (hcs : pyStrip c = c) (hcn : '\n' ∉ c)
    (hcv : (if c ∈ valid_classifications then c else chars "Error: Unknown") = c)
    (heo : hasOccur (chars "Explanation:") e = false)
    (hes : pyStrip e = e) (hen : '\n' ∉ e) (hee : e ≠ []) :
    parse_llm_response
        (some (chars "Classification: " ++ c ++ '\n' :: (chars "Explanation: " ++ e))) =
      (some c, some e) := by
  have hel : lstrip e = e := (pyStrip_fix_parts e hes).1
  have her : rstrip e = e := (pyStrip_fix_parts e hes).2
  have hwne : chars "Classification: " ++ c ++ '\n' :: (chars "Explanation: " ++ e) ≠ [] := by
    rw [show chars "Classification: " ++ c ++ '\n' :: (chars "Explanation: " ++ e) =
      'C' :: (chars "lassification: " ++ c ++ '\n' :: (chars "Explanation: " ++ e))
      from rfl]
    exact List.cons_ne_nil _ _
  refine parse_some_scan _ hwne c e ?_ hcv hee
  have hstrip : pyStrip (chars "Classification: " ++ c ++ '\n' :: (chars "Explanation: " ++ e)) =
      chars "Classification: " ++ c ++ '\n' :: (chars "Explanation: " ++ e) := by
    rw [pyStrip]
    rw [show chars "Classification: " ++ c ++ '\n' :: (chars "Explanation: " ++ e) =
      'C' :: (chars "lassification: " ++ c ++ '\n' :: (chars "Explanation: " ++ e))
      from rfl]
    rw [lstrip_cons_of_not_space 'C' _ (by decide)]
    rw [show 'C' :: (chars "lassification: " ++ c ++ '\n' :: (chars "Explanation: " ++ e)) =
      (chars "Classification: " ++ c ++ '\n' :: chars "Explanation: ") ++ e from by
        rw [show chars "Classification: " = 'C' :: chars "lassification: " from rfl]
        simp [List.append_assoc]]
    exact rstrip_append _ e hee her
  rw [hstrip]
  have hsplit : splitNl (chars "Classification: " ++ c ++ '\n' :: (chars "Explanation: " ++ e)) =
      (chars "Classification: " ++ c) :: [chars "Explanation: " ++ e] := by
    rw [show chars "Classification: " ++ c ++ '\n' :: (chars "Explanation: " ++ e) =
      (chars "Classification: " ++ c) ++ '\n' :: (chars "Explanation: " ++ e) from by
        simp [List.append_assoc]]
    rw [splitNl_append_nl _ _ (by
      rw [List.mem_append]
      push_neg
      exact ⟨by decide, hcn⟩)]
    rw [splitNl_of_no_nl _ (by
      rw [List.mem_append]
      push_neg
      exact ⟨by decide, hen⟩)]
  rw [hsplit]
  rw [scanLines, List.foldl_cons, scanStep_label_c (none, none) c hco hcs,
    List.foldl_cons, scanStep_label_e (some c, none) e heo hes, List.foldl_nil]

/-! Helper lemmas about the orchestrator. -/

lemma processEntries_eq (client : Nat → Option Reply) (wok : Nat → Bool)
    (entries : List Entry) : ∀ i,
    processEntries client wok i entries =
      (runWrites client wok i entries,
       runSucc client wok i entries, runFail client wok i entries) := by
  induction entries with
  | nil => intro i; rfl
  | cons e rest ih =>
    intro i
    simp only [processEntries, runWrites, runSucc, runFail, ih (i + 1)]
    cases hst : (stepOf client wok i e).2 <;> simp [Nat.add_comm]

lemma runSucc_add_runFail (client : Nat → Option Reply) (wok : Nat → Bool)
    (entries : List Entry) : ∀ i,
    runSucc client wok i entries + runFail client wok i entries = entries.length := by
  induction entries with
  | nil => intro i; rfl
  | cons e rest ih =>
    intro i
    simp only [runSucc, runFail, List.length_cons]
    have := ih (i + 1)
    cases (stepOf client wok i e).2 <;> simp <;> omega

lemma runWrites_length (client : Nat → Option Reply) (wok : Nat → Bool)
    (entries : List Entry) : ∀ i,
    (runWrites client wok i entries).length = entries.length := by
  induction entries with
  | nil => intro i; rfl
  | cons e rest ih => intro i; simp [runWrites, ih (i + 1)]

lemma runWrites_getElem (client : Nat → Option Reply) (wok : Nat → Bool)
    (entries : List Entry) : ∀ i j (e : Entry), entries[j]? = some e →
    (runWrites client wok i entries)[j]? = some (stepOf client wok (i + j) e).1 := by
  induction entries with
  | nil => intro i j e h; simp at h
  | cons e0 rest ih =>
    intro i j e h
    cases j with
    | zero =>
      rw [List.getElem?_cons_zero] at h
      rw [Option.some_inj] at h
      rw [runWrites, List.getElem?_cons_zero, h, show i + 0 = i from rfl]
    | succ j =>
      rw [List.getElem?_cons_succ] at h
      rw [runWrites, List.getElem?_cons_succ]
      have := ih (i + 1) j e h
      rw [this]
      have harith : i + 1 + j = i + (j + 1) := by omega
      rw [harith]

lemma runFail_pos (client : Nat → Option Reply) (wok : Nat → Bool)
    (entries : List Entry) : ∀ i j (e : Entry), entries[j]? = some e →
    (stepOf client wok (i + j) e).2 = false → 1 ≤ runFail client wok i entries := by
  induction entries with
  | nil => intro i j e h; simp at h
  | cons e0 rest ih =>
    intro i j e h hf
    cases j with
    | zero =>
      rw [List.getElem?_cons_zero, Option.some_inj] at h
      rw [runFail, h]
      rw [show i + 0 = i from rfl] at hf
      rw [hf]
      simp
    | succ j =>
      rw [List.getElem?_cons_succ] at h
      rw [runFail]
      have := ih (i + 1) j e h (by rw [show i + 1 + j = i + (j + 1) from by omega]; exact hf)
      cases hst : (stepOf client wok i e0).2
      · simp only [Bool.false_eq_true, if_false]
        omega
      · simp only [if_true]
        omega

lemma runMain_eq (client : Nat → Option Reply) (wok : Nat → Bool)
    (entries : List Entry) (h : entries ≠ []) :
    runMain client wok entries =
      (runWrites client wok 0 entries,
       some (runSucc client wok 0 entries, runFail client wok 0 entries)) := by
  rw [runMain, if_neg (by rw [isEmpty_false_of_ne_nil entries h]; exact Bool.false_ne_true)]
  rw [processEntries_eq]

lemma stepOf_status_cases (client : Nat → Option Reply) (wok : Nat → Bool)
    (i : Nat) (e : Entry) :
    (stepOf client wok i e).1.status = chars "CLASSIFIED" ∨
    (stepOf client wok i e).1.status = chars "FAILED (no response)" ∨
    (stepOf client wok i e).1.status = chars "FAILED (to parse response)" := by
  rw [stepOf.eq_def]
  cases client i with
  | none => right; left; rfl
  | some rep =>
    by_cases hg : (pyTruthyStr (parse_llm_response rep.content).1 &&
        pyTruthyStr (parse_llm_response rep.content).2) = true
    · left; simp only [hg, if_true]
    · right; right
      rw [Bool.not_eq_true] at hg
      simp only [hg, Bool.false_eq_true, if_false]

lemma runWrites_status_all (client : Nat → Option Reply) (wok : Nat → Bool)
    (entries : List Entry) : ∀ i,
    ((runWrites client wok i entries).map (fun u => u.status)).all
      (fun s => s = chars "CLASSIFIED" || s = chars "FAILED (no response)" ||
        s = chars "FAILED (to parse response)") = true := by
  induction entries with
  | nil => intro i; rfl
  | cons e rest ih =>
    intro i
    rw [runWrites, List.map_cons, List.all_cons, ih (i + 1), Bool.and_true]
    rcases stepOf_status_cases client wok i e with h | h | h <;> simp [h]

/-! Theorems settling the claims. -/

/-- C8: when the fetch returns zero rows, main returns early: the run makes
no update_database call and the successful and failed counters are never
produced (the summary component is None). -/
theorem c8_empty_batch_no_writes (client : Nat → Option Reply) (wok : Nat → Bool) :
    runMain client wok [] = ([], none) := rfl

/-- C9: for every non-empty fetched batch, the run makes exactly one
update_database call per article, and each iteration increments exactly one of
the two counters, so successful plus failed equals the number of fetched
articles (a failed store write on the CLASSIFIED path sets the iteration's
success flag to false via the wok oracle inside stepOf). -/
theorem c9_counters_partition (client : Nat → Option Reply) (wok : Nat → Bool)
    (entries : List Entry) (h : entries ≠ []) :
    runMain client wok entries =
      (runWrites client wok 0 entries,
       some (runSucc client wok 0 entries, runFail client wok 0 entries)) ∧
    runSucc client wok 0 entries + runFail client wok 0 entries = entries.length ∧
    (runWrites client wok 0 entries).length = entries.length :=
  ⟨runMain_eq client wok entries h, runSucc_add_runFail client wok entries 0,
   runWrites_length client wok entries 0⟩

/-- Witness for C9 at a concrete two-article batch in which the first article
classifies and the second gets no response. -/
theorem c9_counters_partition_witness :
    runMain sampleClient sampleWok [sampleEntry1, sampleEntry2] =
      (runWrites sampleClient sampleWok 0 [sampleEntry1, sampleEntry2],
       some (runSucc sampleClient sampleWok 0 [sampleEntry1, sampleEntry2],
             runFail sampleClient sampleWok 0 [sampleEntry1, sampleEntry2])) ∧
    runSucc sampleClient sampleWok 0 [sampleEntry1, sampleEntry2] +
      runFail sampleClient sampleWok 0 [sampleEntry1, sampleEntry2] = 2 ∧
    (runWrites sampleClient sampleWok 0 [sampleEntry1, sampleEntry2]).length = 2 :=
  c9_counters_partition sampleClient sampleWok [sampleEntry1, sampleEntry2] (by decide)

/-- C1: in a batch of three articles where the client fails exactly on the
second article and the other two replies parse successfully (with every store
write succeeding), the run persists article 2 with status FAILED (no response)
and null fields, persists articles 1 and 3 as CLASSIFIED with their parsed
fields, and ends with successful = 2 and failed = 1; the failure on article 2
does not stop articles 1 and 3 from being processed. -/
theorem c1_client_failure_isolated (e1 e2 e3 : Entry) (r0 r2 : Reply)
    (h0 : goodReply r0 = true) (h2 : goodReply r2 = true) :
    runMain (fun i => match i with | 0 => some r0 | 1 => none | _ => some r2)
        (fun _ => true) [e1, e2, e3] =
      ([⟨e1.id, (parse_llm_response r0.content).1, (parse_llm_response r0.content).2,
          some (pyOrDefault r0.reasoning []), chars "CLASSIFIED"⟩,
        ⟨e2.id, none, none, none, chars "FAILED (no response)"⟩,
        ⟨e3.id, (parse_llm_response r2.content).1, (parse_llm_response r2.content).2,
          some (pyOrDefault r2.reasoning []), chars "CLASSIFIED"⟩],
       some (2, 1)) := by
  rw [goodReply] at h0 h2
  simp [runMain, processEntries, stepOf, h0, h2]

/-- Witness for C1 at three concrete articles, a concrete failing index and
two concrete well-formed replies. -/
theorem c1_client_failure_isolated_witness :
    runMain (fun i => match i with
        | 0 => some sampleGoodReply | 1 => none | _ => some sampleGoodReply2)
        (fun _ => true) [sampleEntry1, sampleEntry2, sampleEntry3] =
      ([⟨sampleEntry1.id, (parse_llm_response sampleGoodReply.content).1,
          (parse_llm_response sampleGoodReply.content).2,
          some (pyOrDefault sampleGoodReply.reasoning []), chars "CLASSIFIED"⟩,
        ⟨sampleEntry2.id, none, none, none, chars "FAILED (no response)"⟩,
        ⟨sampleEntry3.id, (parse_llm_response sampleGoodReply2.content).1,
          (parse_llm_response sampleGoodReply2.content).2,
          some (pyOrDefault sampleGoodReply2.reasoning []), chars "CLASSIFIED"⟩],
       some (2, 1)) :=
  c1_client_failure_isolated sampleEntry1 sampleEntry2 sampleEntry3
    sampleGoodReply sampleGoodReply2 (by decide) (by decide)

/-- C3: for every article whose client call succeeds but whose reply content
does not parse into a truthy classification and explanation, the run persists
exactly that article with status FAILED (to parse response) and null
classification, explanation and reasoning, the iteration's success flag is
false, and the failed counter of the run is at least one. -/
theorem c3_unparsable_failed_parse (client : Nat → Option Reply) (wok : Nat → Bool)
    (entries : List Entry) (i : Nat) (rep : Reply) (e : Entry)
    (he : entries[i]? = some e)
    (hc : client i = some rep)
    (hbad : (pyTruthyStr (parse_llm_response rep.content).1 &&
             pyTruthyStr (parse_llm_response rep.content).2) = false) :
    runMain client wok entries =
      (runWrites client wok 0 entries,
       some (runSucc client wok 0 entries, runFail client wok 0 entries)) ∧
    (runWrites client wok 0 entries)[i]? =
      some ⟨e.id, none, none, none, chars "FAILED (to parse response)"⟩ ∧
    (stepOf client wok i e).2 = false ∧
    1 ≤ runFail client wok 0 entries := by
  have hne : entries ≠ [] := by
    intro hnil
    rw [hnil] at he
    simp at he
  have hstep : stepOf client wok i e =
      (⟨e.id, none, none, none, chars "FAILED (to parse response)"⟩, false) := by
    rw [stepOf.eq_def, hc]
    simp only [hbad, Bool.false_eq_true, if_false]
  refine ⟨runMain_eq client wok entries hne, ?_, by rw [hstep], ?_⟩
  · have hg := runWrites_getElem client wok entries 0 i e he
    rw [Nat.zero_add] at hg
    rw [hg, hstep]
  · refine runFail_pos client wok entries 0 i e he ?_
    rw [Nat.zero_add, hstep]

/-- Witness for C3 at a one-article batch whose client reply has empty
content, which the parser maps to (None, None). -/
theorem c3_unparsable_failed_parse_witness :
    runMain sampleClientBad sampleWok [sampleEntry1] =
      (runWrites sampleClientBad sampleWok 0 [sampleEntry1],
       some (runSucc sampleClientBad sampleWok 0 [sampleEntry1],
             runFail sampleClientBad sampleWok 0 [sampleEntry1])) ∧
    (runWrites sampleClientBad sampleWok 0 [sampleEntry1])[0]? =
      some ⟨sampleEntry1.id, none, none, none, chars "FAILED (to parse response)"⟩ ∧
    (stepOf sampleClientBad sampleWok 0 sampleEntry1).2 = false ∧
    1 ≤ runFail sampleClientBad sampleWok 0 [sampleEntry1] :=
  c3_unparsable_failed_parse sampleClientBad sampleWok [sampleEntry1] 0
    sampleBadReply sampleEntry1 (by decide) (by decide) (by decide)

/-- C2: every status the pipeline writes through update_database is one of
the exact labels CLASSIFIED, FAILED (no response), FAILED (to parse response);
however none of these labels satisfies the CHECK constraint on the status
column of the articles table created by init_db in src/db.py, which only
admits FAILED, PENDING and SENT (only the initial PENDING label does). -/
theorem c2_status_vocabulary_vs_check :
    (∀ (client : Nat → Option Reply) (wok : Nat → Bool) (entries : List Entry),
      ((runMain client wok entries).1.map (fun u => u.status)).all
        (fun s => s = chars "CLASSIFIED" || s = chars "FAILED (no response)" ||
          s = chars "FAILED (to parse response)") = true) ∧
    sqliteStatusCheckOK (chars "CLASSIFIED") = false ∧
    sqliteStatusCheckOK (chars "FAILED (no response)") = false ∧
    sqliteStatusCheckOK (chars "FAILED (to parse response)") = false ∧
    sqliteStatusCheckOK (chars "PENDING") = true := by
  refine ⟨?_, by decide, by decide, by decide, by decide⟩
  intro client wok entries
  cases entries with
  | nil => rfl
  | cons e rest =>
    rw [runMain_eq client wok (e :: rest) (List.cons_ne_nil e rest)]
    exact runWrites_status_all client wok (e :: rest) 0

/-- C10: for every non-empty raw input the explanation component is the value
scanned from the last Explanation line when that is non-empty, and otherwise
falls back to the entire raw input; it is never the empty string, and the
explanation is None exactly when the raw input is None or empty. -/
theorem c10_explanation_fallback (r : PyStr) (h : r ≠ []) :
    (parse_llm_response (some r)).2 =
      some (match (scanLines (splitNl (pyStrip r))).2 with
            | some e0 => if e0.isEmpty then r else e0
            | none => r) ∧
    (parse_llm_response (some r)).2 ≠ some [] ∧
    parse_llm_response none = (none, none) ∧
    parse_llm_response (some []) = (none, none) := by
  have h1 : (parse_llm_response (some r)).2 =
      some (match (scanLines (splitNl (pyStrip r))).2 with
            | some e0 => if e0.isEmpty then r else e0
            | none => r) := by
    simp only [parse_llm_response]
    rw [isEmpty_false_of_ne_nil r h]
    simp only [Bool.false_eq_true, if_false]
  refine ⟨h1, ?_, rfl, rfl⟩
  rw [h1, Ne, Option.some_inj]
  cases hsc : (scanLines (splitNl (pyStrip r))).2 with
  | none => exact h
  | some e0 =>
    show ¬ (if e0.isEmpty = true then r else e0) = []
    by_cases hemp : e0.isEmpty = true
    · rw [if_pos hemp]
      exact h
    · rw [if_neg hemp]
      intro hcon
      rw [hcon] at hemp
      exact hemp rfl

/-- Witness for C10 at a raw input whose only Explanation line carries nothing
but whitespace, so the whole raw input is used as the explanation. -/
theorem c10_explanation_fallback_witness :
    (parse_llm_response (some (chars "Explanation:   "))).2 =
      some (match (scanLines (splitNl (pyStrip (chars "Explanation:   ")))).2 with
            | some e0 => if e0.isEmpty then chars "Explanation:   " else e0
            | none => chars "Explanation:   ") ∧
    (parse_llm_response (some (chars "Explanation:   "))).2 ≠ some [] ∧
    parse_llm_response none = (none, none) ∧
    parse_llm_response (some []) = (none, none) :=
  c10_explanation_fallback (chars "Explanation:   ") (by decide)

/-- C4 counterexample: on an input with two Classification lines the parser
keeps the value of the last matching line, not the first, so the claimed
first-match result Threat is wrong (the code returns Neutral). -/
theorem c4_first_match_counterexample :
    (parse_llm_response (some (chars
      "Classification: Threat\nClassification: Neutral\nExplanation: X"))).1 =
      some (chars "Neutral") ∧
    some (chars "Neutral") ≠ (some (chars "Threat") : Option PyStr) :=
  ⟨by decide, by decide⟩

/-- C4 as amended: for every non-empty raw input, the captured value of each
label comes from the last line matching that label's literal case-sensitive
prefix (last match wins), each label is scanned independently of the other, so
the relative order of Classification and Explanation lines in the text does
not affect the result. -/
theorem c4_last_match_wins (r : PyStr) (h : r ≠ []) :
    parse_llm_response (some r) =
      (some (match (lastSuch isClassLine (splitNl (pyStrip r))).map extractC with
             | some c => if c ∈ valid_classifications then c else chars "Error: Unknown"
             | none => chars "Error: Unknown"),
       some (match (lastSuch isExplLine (splitNl (pyStrip r))).map extractE with
             | some e => if e.isEmpty then r else e
             | none => r)) :=
  parse_some_eq r h

/-- Witness for C4 at an input with two Classification and two Explanation
lines: both captured values come from the respective last lines. -/
theorem c4_last_match_wins_witness :
    parse_llm_response (some (chars
      "Classification: Opportunity\nClassification: Threat\nExplanation: A\nExplanation: B")) =
      (some (chars "Threat"), some (chars "B")) := by
  rw [c4_last_match_wins (chars
    "Classification: Opportunity\nClassification: Threat\nExplanation: A\nExplanation: B")
    (by decide)]
  decide

/-- C5 counterexample: parsing "hello\nworld" yields the multi-line raw-text
fallback as explanation, and re-parsing the pair formatted back into the
two-line template loses everything after the first newline, so the
idempotence claim fails as stated. -/
theorem c5_idempotence_counterexample :
    parse_llm_response (some (chars "hello\nworld")) =
      (some (chars "Error: Unknown"), some (chars "hello\nworld")) ∧
    parse_llm_response (some (chars "Classification: " ++ chars "Error: Unknown" ++
        '\n' :: (chars "Explanation: " ++ chars "hello\nworld"))) =
      (some (chars "Error: Unknown"), some (chars "hello")) ∧
    chars "hello" ≠ chars "hello\nworld" :=
  ⟨by decide, by decide, by decide⟩

/-- C5 as amended: if parse_llm_response r = (c, e) and e is a single line
(no newline) that equals its own whitespace-trim and contains no occurrence of
the label substring Explanation:, then re-parsing the pair formatted back into
the two-line template returns the same pair (c, e). -/
theorem c5_idempotent_single_line (r : Option PyStr) (c e : PyStr)
    (hp : parse_llm_response r = (some c, some e))
    (hen : '\n' ∉ e) (hes : pyStrip e = e)
    (heo : hasOccur (chars "Explanation:") e = false) :
    parse_llm_response
        (some (chars "Classification: " ++ c ++ '\n' :: (chars "Explanation: " ++ e))) =
      (some c, some e) := by
  have hee : e ≠ [] := parse_snd_ne_nil r (some c) e hp
  rcases parse_fst_cases r c (some e) hp with hc | hc | hc | hc <;> subst hc <;>
    exact parse_template _ e (by decide) (by decide) (by decide) (by decide) heo hes hen hee

/-- Witness for C5 at a concrete parse result re-parsed through the template. -/
theorem c5_idempotent_single_line_witness :
    parse_llm_response
        (some (chars "Classification: " ++ chars "Opportunity" ++
          '\n' :: (chars "Explanation: " ++ chars "ok"))) =
      (some (chars "Opportunity"), some (chars "ok")) :=
  c5_idempotent_single_line (some (chars "Classification: Opportunity\nExplanation: ok"))
    (chars "Opportunity") (chars "ok") (by decide) (by decide) (by decide) (by decide)

/-- C6 counterexample: this input contains a Classification line whose trimmed
value Banana lies outside the valid set, yet the parser returns Threat, taken
from the later Classification line, not the sentinel, so the claim fails as
stated. -/
theorem c6_out_of_vocab_counterexample :
    parse_llm_response (some (chars
      "Classification: Banana\nClassification: Threat\nExplanation: Y")) =
      (some (chars "Threat"), some (chars "Y")) ∧
    chars "Threat" ≠ chars "Error: Unknown" :=
  ⟨by decide, by decide⟩

/-- C6 as amended: for every non-empty raw input whose last Classification
line (if any) captures a value outside the valid set, the classification is
the sentinel Error: Unknown, and the explanation is still extracted normally,
with the usual raw-text fallback, never raising an error. -/
theorem c6_unknown_sentinel (r : PyStr) (h : r ≠ [])
    (hbad : ((lastSuch isClassLine (splitNl (pyStrip r))).map extractC).all
      (fun c0 => decide (c0 ∉ valid_classifications)) = true) :
    (parse_llm_response (some r)).1 = some (chars "Error: Unknown") ∧
    (parse_llm_response (some r)).2 =
      some (match (lastSuch isExplLine (splitNl (pyStrip r))).map extractE with
            | some e0 => if e0.isEmpty then r else e0
            | none => r) := by
  rw [parse_some_eq r h]
  refine ⟨?_, rfl⟩
  cases hl : lastSuch isClassLine (splitNl (pyStrip r)) with
  | none => rfl
  | some l =>
    rw [hl] at hbad
    have hv : extractC l ∉ valid_classifications := of_decide_eq_true hbad
    show some (if extractC l ∈ valid_classifications then extractC l
      else chars "Error: Unknown") = some (chars "Error: Unknown")
    rw [if_neg hv]

/-- Witness for C6 at the out-of-vocabulary input from the specification. -/
theorem c6_unknown_sentinel_witness :
    (parse_llm_response (some (chars "Classification: Banana\nExplanation: Y"))).1 =
      some (chars "Error: Unknown") ∧
    (parse_llm_response (some (chars "Classification: Banana\nExplanation: Y"))).2 =
      some (match (lastSuch isExplLine (splitNl (pyStrip
            (chars "Classification: Banana\nExplanation: Y")))).map extractE with
            | some e0 => if e0.isEmpty then chars "Classification: Banana\nExplanation: Y"
                         else e0
            | none => chars "Classification: Banana\nExplanation: Y") :=
  c6_unknown_sentinel (chars "Classification: Banana\nExplanation: Y")
    (by decide) (by decide)

/-- C7 counterexample: the single-line explanation text a Explanation: b is
non-empty and has no surrounding whitespace, yet parsing the well-formed
template does not return it intact: replace removes every occurrence of the
label, so the captured explanation is a  b. -/
theorem c7_label_substring_counterexample :
    parse_llm_response (some (chars "Classification: " ++ chars "Threat" ++
        '\n' :: (chars "Explanation: " ++ chars "a Explanation: b"))) =
      (some (chars "Threat"), some (chars "a  b")) ∧
    chars "a  b" ≠ chars "a Explanation: b" :=
  ⟨by decide, by decide⟩

/-- C7 as amended: for every classification c in the valid set and every
non-empty single-line explanation text x that equals its own whitespace-trim
and contains no occurrence of the label substring Explanation:, parsing the
well-formed template returns exactly (c, x), the label and surrounding
whitespace trimmed from each captured value. -/
theorem c7_wellformed_template (c x : PyStr)
    (hc : c ∈ valid_classifications)
    (hx : x ≠ []) (hxn : '\n' ∉ x) (hxs : pyStrip x = x)
    (hxo : hasOccur (chars "Explanation:") x = false) :
    parse_llm_response
        (some (chars "Classification: " ++ c ++ '\n' :: (chars "Explanation: " ++ x))) =
      (some c, some x) := by
  simp only [valid_classifications, List.mem_cons, List.not_mem_nil, or_false] at hc
  rcases hc with hc | hc | hc <;> subst hc <;>
    exact parse_template _ x (by decide) (by decide) (by decide) (by decide) hxo hxs hxn hx

/-- Witness for C7 at the specification's example instance. -/
theorem c7_wellformed_template_witness :
    parse_llm_response
        (some (chars "Classification: " ++ chars "Threat" ++
          '\n' :: (chars "Explanation: " ++ chars "X"))) =
      (some (chars "Threat"), some (chars "X")) :=
  c7_wellformed_template (chars "Threat") (chars "X")
    (by decide) (by decide) (by decide) (by decide) (by decide)
